import Mathlib

/-!
Verification of the event-driven workflow engine
(`app/services/workflow_engine.py`, `app/services/workflow_consumer.py`).

The Python code is shallowly embedded: JSON-like runtime values become the
inductive `Value`, Python exceptions become an explicit `Except PyErr`
result, the recursive condition evaluator and step executor take an explicit
fuel argument (running out of fuel corresponds to Python's `RecursionError`),
and the external collaborators (JSON decoding, the SMTP transport) are
parameters of the functions that use them.  Floating-point numbers are not
modelled: no property under consideration involves them.
-/

/-- Python exception kinds that the embedded code paths can raise. -/
inductive PyErr where
  | typeError
  | attributeError
  | valueError
  | keyError
  | recursionError
deriving DecidableEq, Repr

/-- JSON-like Python runtime values: `None`, booleans, integers, strings,
lists and string-keyed dicts (dicts are association lists; lookups take the
first matching key). -/
inductive Value where
  | none
  | bool (b : Bool)
  | int (n : Int)
  | str (s : String)
  | list (xs : List Value)
  | dict (entries : List (String × Value))

namespace Workflow

/-- First-match lookup in a dict's entry list (`d.get(k)` returning
`None` is represented by `Option.none`). -/
def dictGet (entries : List (String × Value)) (k : String) : Option Value :=
  (entries.find? (fun kv => kv.1 = k)).map (fun kv => kv.2)

/-- Python `k in d` for a dict. -/
def dictHasKey (entries : List (String × Value)) (k : String) : Bool :=
  (dictGet entries k).isSome

/-- Python `\x7b**base, **upd\x7d`: the update's entries win on key collision.
With first-match lookup, prepending the update is lookup-equivalent. -/
def pyDictUpdate (base upd : List (String × Value)) : List (String × Value) :=
  upd ++ base

/-- Python truthiness (`bool(v)`). -/
def pyTruthy : Value → Bool
  | .none => false
  | .bool b => b
  | .int n => n != 0
  | .str s => s != ""
  | .list xs => !xs.isEmpty
  | .dict e => !e.isEmpty

/-- A single quote character, used by `pyRepr` for strings. -/
def squote : String := String.mk [Char.ofNat 39]

mutual

/-- Python `repr` (as used by `str` on containers).  String escaping inside
`repr` is not reproduced; no claim inspects the rendering of containers. -/
def pyRepr : Value → String
  | .none => "None"
  | .bool b => if b then "True" else "False"
  | .int n => toString n
  | .str s => squote ++ s ++ squote
  | .list xs => "[" ++ String.intercalate ", " (pyReprList xs) ++ "]"
  | .dict e => "\x7b" ++ String.intercalate ", " (pyReprEntries e) ++ "\x7d"

def pyReprList : List Value → List String
  | [] => []
  | v :: vs => pyRepr v :: pyReprList vs

def pyReprEntries : List (String × Value) → List String
  | [] => []
  | (k, v) :: kvs => (squote ++ k ++ squote ++ ": " ++ pyRepr v) :: pyReprEntries kvs

end

/-- Python `str(v)`. -/
def pyStr : Value → String
  | .str s => s
  | v => pyRepr v

mutual

/-- Python `==`.  Booleans compare equal to the corresponding integers
(`True == 1`).  Dict equality is compared entrywise in declared order; the
engine never compares two mappings for equality on any claim-relevant path. -/
def pyEq : Value → Value → Bool
  | .none, .none => true
  | .bool a, .bool b => a = b
  | .bool a, .int b => (if a then (1 : Int) else 0) = b
  | .int a, .bool b => a = (if b then (1 : Int) else 0)
  | .int a, .int b => a = b
  | .str a, .str b => a = b
  | .list a, .list b => pyEqList a b
  | .dict a, .dict b => pyEqEntries a b
  | _, _ => false

def pyEqList : List Value → List Value → Bool
  | [], [] => true
  | a :: as, b :: bs => pyEq a b && pyEqList as bs
  | _, _ => false

def pyEqEntries : List (String × Value) → List (String × Value) → Bool
  | [], [] => true
  | (ka, va) :: as, (kb, vb) :: bs => ka = kb && pyEq va vb && pyEqEntries as bs
  | _, _ => false

end

/-- Python list membership `x in l` (elementwise `==`). -/
def pyInList (x : Value) (l : List Value) : Bool :=
  l.any (fun y => pyEq x y)

mutual

/-- Python `a < b`: numbers compare numerically (booleans as 0/1), strings
lexicographically, lists lexicographically; any other combination raises
`TypeError`. -/
def pyLt : Value → Value → Except PyErr Bool
  | .int a, .int b => .ok (a < b)
  | .int a, .bool b => .ok (a < (if b then (1 : Int) else 0))
  | .bool a, .int b => .ok ((if a then (1 : Int) else 0) < b)
  | .bool a, .bool b => .ok ((if a then (1 : Int) else 0) < (if b then (1 : Int) else 0))
  | .str a, .str b => .ok (decide (a < b))
  | .list a, .list b => pyLtList a b
  | _, _ => .error .typeError

def pyLtList : List Value → List Value → Except PyErr Bool
  | [], [] => .ok false
  | [], _ :: _ => .ok true
  | _ :: _, [] => .ok false
  | a :: as, b :: bs => if pyEq a b then pyLtList as bs else pyLt a b

end

mutual

/-- Python `a <= b` (same type rules as `pyLt`). -/
def pyLe : Value → Value → Except PyErr Bool
  | .int a, .int b => .ok (a ≤ b)
  | .int a, .bool b => .ok (a ≤ (if b then (1 : Int) else 0))
  | .bool a, .int b => .ok ((if a then (1 : Int) else 0) ≤ b)
  | .bool a, .bool b => .ok ((if a then (1 : Int) else 0) ≤ (if b then (1 : Int) else 0))
  | .str a, .str b => .ok (decide (a ≤ b))
  | .list a, .list b => pyLeList a b
  | _, _ => .error .typeError

def pyLeList : List Value → List Value → Except PyErr Bool
  | [], _ => .ok true
  | _ :: _, [] => .ok false
  | a :: as, b :: bs => if pyEq a b then pyLeList as bs else pyLt a b

end

/-- Python `a > b` for the built-in types above coincides with `b < a`. -/
def pyGt (a b : Value) : Except PyErr Bool := pyLt b a

/-- Python `a >= b` coincides with `b <= a`. -/
def pyGe (a b : Value) : Except PyErr Bool := pyLe b a

/-- Whether the first character list starts the second. -/
def leadsWith : List Char → List Char → Bool
  | [], _ => true
  | _ :: _, [] => false
  | a :: as, b :: bs => a = b && leadsWith as bs

/-- Whether the first character list occurs inside the second. -/
def listContainsSub (sub : List Char) : List Char → Bool
  | [] => leadsWith sub []
  | c :: rest => leadsWith sub (c :: rest) || listContainsSub sub rest

/-- `sub in s` on strings: substring test (the empty string is a substring
of everything, as in Python). -/
def strContainsSub (sub s : String) : Bool :=
  listContainsSub sub.data s.data

/-- `value in str(context_value)`: the left operand must be a string,
otherwise Python raises `TypeError`. -/
def pyInStr (v : Value) (s : String) : Except PyErr Bool :=
  match v with
  | .str sub => .ok (strContainsSub sub s)
  | _ => .error .typeError

/-- Python `s.split(sep)` for a single-character separator, as
`path.split(".")` uses it: splitting the empty string yields `[""]` and a
trailing separator yields a trailing empty field. -/
def splitOnChar (sep : Char) (s : String) : List String :=
  go s.data []
where
  go : List Char → List Char → List String
    | [], acc => [String.mk acc.reverse]
    | c :: rest, acc =>
      if c = sep then String.mk acc.reverse :: go rest [] else go rest (c :: acc)

/-- `WorkflowEngine._get_path_value`: split the path on dots and descend;
any non-dict intermediate (including the `None` produced by a missing key)
makes the whole lookup return `None`. -/
def get_path_value (data : Value) (path : String) : Value :=
  go (splitOnChar (Char.ofNat 46) path) data
where
  go : List String → Value → Value
    | [], v => v
    | k :: ks, .dict entries => go ks ((dictGet entries k).getD .none)
    | _ :: _, _ => .none

def lbrace : Char := Char.ofNat 123
def rbrace : Char := Char.ofNat 125

/-- Python `template.format(**data)`, restricted to the plain placeholder
forms the workflow configs use: `\x7bname\x7d` substitutes `str(data[name])`
(`KeyError` when absent), doubled braces escape themselves, and stray or
unclosed braces raise `ValueError`.  Format specifications and
attribute/index accesses inside a placeholder are not modelled; no claim
exercises them. -/
def pyFormatChars (data : List (String × Value)) :
    Option (List Char) → List Char → Except PyErr (List Char)
  | Option.none, [] => .ok []
  | Option.none, c :: rest =>
    if c = lbrace then
      match rest with
      | [] => .error .valueError
      | c2 :: rest2 =>
        if c2 = lbrace then (pyFormatChars data Option.none rest2).map (fun t => lbrace :: t)
        else pyFormatChars data (some []) (c2 :: rest2)
    else if c = rbrace then
      match rest with
      | c2 :: rest2 =>
        if c2 = rbrace then (pyFormatChars data Option.none rest2).map (fun t => rbrace :: t)
        else .error .valueError
      | [] => .error .valueError
    else
      (pyFormatChars data Option.none rest).map (fun t => c :: t)
  | some _, [] => .error .valueError
  | some acc, c :: rest =>
    if c = rbrace then
      match dictGet data (String.mk acc.reverse) with
      | Option.none => .error .keyError
      | some v => (pyFormatChars data Option.none rest).map (fun t => (pyStr v).data ++ t)
    else pyFormatChars data (some (c :: acc)) rest

def pyFormat (template : String) (data : List (String × Value)) : Except PyErr String :=
  (pyFormatChars data Option.none template.data).map String.mk

/-- Python `all(f(c) for c in xs)`: lazy, stops at the first `False`;
an exception raised before that propagates. -/
def evalAllList (f : Value → Except PyErr Bool) : List Value → Except PyErr Bool
  | [] => .ok true
  | c :: cs =>
    match f c with
    | .error e => .error e
    | .ok false => .ok false
    | .ok true => evalAllList f cs

/-- Python `any(f(c) for c in xs)`: lazy, stops at the first `True`. -/
def evalAnyList (f : Value → Except PyErr Bool) : List Value → Except PyErr Bool
  | [] => .ok false
  | c :: cs =>
    match f c with
    | .error e => .error e
    | .ok true => .ok true
    | .ok false => evalAnyList f cs

/-- Python iteration (`for c in v`): lists yield their elements, strings
their one-character substrings, dicts their keys; other values raise
`TypeError`. -/
def iterValues : Value → Except PyErr (List Value)
  | .list xs => .ok xs
  | .str s => .ok (s.data.map (fun ch => Value.str (String.mk [ch])))
  | .dict e => .ok (e.map (fun kv => Value.str kv.1))
  | _ => .error .typeError

/-- `WorkflowEngine.evaluate_condition`.  The fuel argument bounds the
recursion depth (exhaustion corresponds to Python's `RecursionError`).
A falsy condition (`None`, `\x7b\x7d`, ...) is unconditionally true; an `all`
or `any` key folds over the children; a leaf needs both `path` and `op`
keys, resolves the context value through `get_path_value` and dispatches on
the operator, falling through to `False` for an unknown operator or a
missing `path`/`op` pair.  A truthy non-dict condition is evaluated exactly
as Python does: membership tests on strings and lists, then a `TypeError`
at the subsequent indexing (or directly for non-iterables). -/
def evaluate_condition : Nat → Value → Value → Except PyErr Bool
  | 0, _, _ => .error .recursionError
  | fuel + 1, condition, context =>
    if pyTruthy condition = false then .ok true
    else
      match condition with
      | .dict entries =>
        match dictGet entries "all" with
        | some v =>
          match iterValues v with
          | .error e => .error e
          | .ok cs => evalAllList (fun c => evaluate_condition fuel c context) cs
        | Option.none =>
        match dictGet entries "any" with
        | some v =>
          match iterValues v with
          | .error e => .error e
          | .ok cs => evalAnyList (fun c => evaluate_condition fuel c context) cs
        | Option.none =>
        if dictHasKey entries "path" && dictHasKey entries "op" then
          let path := (dictGet entries "path").getD .none
          let op := (dictGet entries "op").getD .none
          let value := (dictGet entries "value").getD .none
          match path with
          | .str p =>
            let cv := get_path_value context p
            if pyEq op (.str "==") then .ok (pyEq cv value)
            else if pyEq op (.str "!=") then .ok (!pyEq cv value)
            else if pyEq op (.str "in") then
              match value with
              | .list l => .ok (pyInList cv l)
              | _ => .ok false
            else if pyEq op (.str ">") then pyGt cv value
            else if pyEq op (.str ">=") then pyGe cv value
            else if pyEq op (.str "<") then pyLt cv value
            else if pyEq op (.str "<=") then pyLe cv value
            else if pyEq op (.str "contains") then
              if pyTruthy cv then pyInStr value (pyStr cv) else .ok false
            else .ok false
          | _ => .error .attributeError
        else .ok false
      | .str s =>
        if strContainsSub "all" s then .error .typeError
        else if strContainsSub "any" s then .error .typeError
        else if strContainsSub "path" s && strContainsSub "op" s then .error .typeError
        else .ok false
      | .list xs =>
        if pyInList (.str "all") xs then .error .typeError
        else if pyInList (.str "any") xs then .error .typeError
        else if pyInList (.str "path") xs && pyInList (.str "op") xs then .error .typeError
        else .ok false
      | _ => .error .typeError

/-- A workflow definition row, projected to the fields the engine reads:
`is_active` (the DB query filter) and, inside the `definition` JSON object,
`trigger` (`None` when the key is absent; the code defaults it to `\x7b\x7d`
at its use site), `initial_step_id` and `steps` (schema, spec section 6:
each step has `id`, `type`, `actions[]`, `transitions[]`). -/
structure Transition where
  /-- `transition.get("condition")`; `Value.none` when the key is absent. -/
  condition : Value
  /-- `transition.get("to_step_id")`. -/
  to_step_id : Option String

structure Step where
  /-- `step.get("id")`. -/
  id : Option String
  /-- `step.get("type")`; the code defaults it to `"human_task"` at use. -/
  type : Option String
  /-- `step.get("actions", [])`; actions stay raw dict values. -/
  actions : List Value
  /-- `step.get("transitions", [])`. -/
  transitions : List Transition

structure WorkflowDefinition where
  id : String
  is_active : Bool
  trigger : Option Value
  initial_step_id : Option String
  steps : Option (List Step)

/-- `context = \x7b"event_type": event_type, **event_payload\x7d`: the
payload's entries are written after the reserved key, so they win on every
collision, `event_type` included; splatting a non-mapping raises. -/
def build_trigger_context (event_type : String) (event_payload : Value) :
    Except PyErr Value :=
  match event_payload with
  | .dict entries => .ok (.dict (pyDictUpdate [("event_type", .str event_type)] entries))
  | _ => .error .typeError

/-- `WorkflowEngine.find_matching_workflows`: the DB query keeps the active
definitions; each one is rejected unless `trigger.get("type")` equals the
event type, and, when `trigger.get("conditions")` is truthy, unless those
conditions evaluate true against the merged context.  An exception from the
evaluator aborts the whole scan (the source has no handler here). -/
def find_matching_workflows (fuel : Nat) (event_type : String) (event_payload : Value)
    (workflows : List WorkflowDefinition) : Except PyErr (List WorkflowDefinition) :=
  go (workflows.filter (fun wf => wf.is_active))
where
  go : List WorkflowDefinition → Except PyErr (List WorkflowDefinition)
    | [] => .ok []
    | wf :: rest =>
      match wf.trigger.getD (.dict []) with
      | .dict tEntries =>
        if pyEq ((dictGet tEntries "type").getD .none) (.str event_type) = false then
          go rest
        else
          let conditions := (dictGet tEntries "conditions").getD .none
          if pyTruthy conditions then
            match build_trigger_context event_type event_payload with
            | .error e => .error e
            | .ok context =>
              match evaluate_condition fuel conditions context with
              | .error e => .error e
              | .ok true =>
                match go rest with
                | .error e => .error e
                | .ok ms => .ok (wf :: ms)
              | .ok false => go rest
          else
            match go rest with
            | .error e => .error e
            | .ok ms => .ok (wf :: ms)
      | _ => .error .attributeError

/-- One invocation of the email transport collaborator
(`EmailService.send_email(to, subject, body)`). -/
structure Email where
  to_email : Value
  subject : String
  body : String

/-- `config.get("to_path", "form.data.email")`, which must be a string for
`path.split(".")` to work. -/
def resolve_to_path (config : List (String × Value)) : Except PyErr String :=
  match dictGet config "to_path" with
  | Option.none => .ok "form.data.email"
  | some (.str s) => .ok s
  | some _ => .error .attributeError

/-- `config.get("to") or self._get_path_value(context, ...)`: Python `or`
keeps the `to` value when it is truthy and otherwise (also when the key is
merely present with a falsy value) falls back to the path lookup. -/
def resolve_recipient (config : List (String × Value)) (context : Value) :
    Except PyErr Value :=
  let toV := (dictGet config "to").getD .none
  if pyTruthy toV then .ok toV
  else
    match resolve_to_path config with
    | .error e => .error e
    | .ok p => .ok (get_path_value context p)

/-- A `Value` that must be a string (`.format` on anything else raises). -/
def asStr : Value → Except PyErr String
  | .str s => .ok s
  | _ => .error .attributeError

/-- The body of `WorkflowEngine._execute_send_email` up to its catch-all
handler.  Returns the action result dict together with the transport
invocations made. -/
def send_email_inner (send : Value → String → String → Bool)
    (aEntries : List (String × Value)) (context : Value) :
    Except PyErr (Value × List Email) := do
  let config ←
    match (dictGet aEntries "config").getD (.dict []) with
    | .dict c => Except.ok c
    | _ => Except.error PyErr.attributeError
  let to_email ← resolve_recipient config context
  if pyTruthy to_email = false then
    return (.dict [("status", .str "failed"), ("reason", .str "No recipient email found")], [])
  let subject ← asStr ((dictGet config "subject").getD (.str "Notification"))
  let body ← asStr ((dictGet config "body").getD (.str "You have a new notification."))
  let tmpl ←
    match (dictGet config "template_data").getD (.dict []) with
    | .dict t => Except.ok t
    | _ => Except.error PyErr.typeError
  let ctxEntries ←
    match context with
    | .dict c => Except.ok c
    | _ => Except.error PyErr.typeError
  let template_data := pyDictUpdate ctxEntries tmpl
  -- `try: subject = subject.format(...); body = body.format(...)
  --  except KeyError: pass` — only KeyError is swallowed, and the body is
  -- never formatted when the subject already failed.
  let sb ←
    match pyFormat subject template_data with
    | .ok s2 =>
      match pyFormat body template_data with
      | .ok b2 => Except.ok (s2, b2)
      | .error PyErr.keyError => Except.ok (s2, body)
      | .error e => Except.error e
    | .error PyErr.keyError => Except.ok (subject, body)
    | .error e => Except.error e
  let success := send to_email sb.1 sb.2
  if success then
    return (.dict [("status", .str "success"), ("action", .str "send_email"),
      ("to", to_email)], [⟨to_email, sb.1, sb.2⟩])
  else
    return (.dict [("status", .str "failed"), ("action", .str "send_email"),
      ("reason", .str "Email sending failed")], [⟨to_email, sb.1, sb.2⟩])

/-- The rendering of the caught exception in the error-result dict; the
claims never inspect this text. -/
def pyErrText : PyErr → String
  | .typeError => "TypeError"
  | .attributeError => "AttributeError"
  | .valueError => "ValueError"
  | .keyError => "KeyError"
  | .recursionError => "RecursionError"

/-- `WorkflowEngine._execute_send_email`: the whole body sits in a
`try/except Exception` that converts any raise into an error-status result.
All raises happen before the transport is invoked, so an error result
carries no transport call. -/
def execute_send_email (send : Value → String → String → Bool)
    (aEntries : List (String × Value)) (context : Value) : Value × List Email :=
  match send_email_inner send aEntries context with
  | .ok r => r
  | .error e =>
    (.dict [("status", .str "error"), ("action", .str "send_email"),
      ("error", .str (pyErrText e))], [])

/-- A placeholder handler result (`create_ticket` etc.). -/
def stubResult (name : String) : Value :=
  .dict [("status", .str "success"), ("action", .str name), ("note", .str "Not implemented yet")]

/-- `WorkflowEngine.execute_action`: closed dispatch on `action.get("type")`;
an unknown type yields a skipped result, and only a non-dict action (whose
`.get` does not exist) raises. -/
def execute_action (send : Value → String → String → Bool)
    (action context : Value) : Except PyErr (Value × List Email) :=
  match action with
  | .dict aEntries =>
    let aty := (dictGet aEntries "type").getD .none
    if pyEq aty (.str "send_notification") || pyEq aty (.str "send_email") then
      .ok (execute_send_email send aEntries context)
    else if pyEq aty (.str "create_ticket") then .ok (stubResult "create_ticket", [])
    else if pyEq aty (.str "update_ticket") then .ok (stubResult "update_ticket", [])
    else if pyEq aty (.str "create_task") then .ok (stubResult "create_task", [])
    else if pyEq aty (.str "update_task") then .ok (stubResult "update_task", [])
    else if pyEq aty (.str "webhook") then .ok (stubResult "webhook", [])
    else
      .ok (.dict [("status", .str "skipped"),
        ("reason", .str ("Unknown action type: " ++ pyStr aty))], [])
  | _ => .error .attributeError

/-- The step's action loop: every action runs in order; results are
collected, emails accumulate, and a raise from `execute_action` (only
possible for a non-dict action, before any transport call of that action)
aborts the rest of the loop. -/
def runActions (send : Value → String → String → Bool) (context : Value) :
    List Value → List Value × List Email × Option PyErr
  | [] => ([], [], Option.none)
  | a :: rest =>
    match execute_action send a context with
    | .error e => ([], [], some e)
    | .ok (r, es) =>
      let (rs, ess, e?) := runActions send context rest
      (r :: rs, es ++ ess, e?)

/-- `next((s for s in steps if s.get("id") == step_id), None)`; Python's
`==` on `None`/strings agrees with equality of `Option String`. -/
def findStep (steps : List Step) (step_id : Option String) : Option Step :=
  steps.find? (fun s => s.id = step_id)

/-- The transition loop of `_execute_step`: the first transition whose
condition is falsy (`not condition`) or evaluates true supplies
`to_step_id`; an exception from the evaluator propagates.  `.ok none`
means the loop finished with no satisfied transition. -/
def pickTransition (fuel : Nat) (context : Value) :
    List Transition → Except PyErr (Option (Option String))
  | [] => .ok Option.none
  | t :: rest =>
    if pyTruthy t.condition = false then .ok (some t.to_step_id)
    else
      match evaluate_condition fuel t.condition context with
      | .error e => .error e
      | .ok true => .ok (some t.to_step_id)
      | .ok false => pickTransition fuel context rest

/-- `if next_step_id:` — `None` and `""` are falsy. -/
def optTruthy : Option String → Bool
  | Option.none => false
  | some s => s != ""

/-- How one call to `_execute_step` ended: normally, by an uncaught Python
exception, or by exhausting the recursion budget (`RecursionError`). -/
inductive Outcome where
  | ok
  | raised (e : PyErr)
  | fuelOut
deriving DecidableEq, Repr

/-- The observable result of `_execute_step`: the instance fields it
mutated (`status`, `current_step`) and the transport calls made.  The
per-step `results` list is dropped: the source returns it but every caller
(including the recursive one) ignores it. -/
structure ExecOut where
  outcome : Outcome
  status : String
  current_step : Option String
  emails : List Email

/-- `WorkflowEngine._execute_step` with an explicit recursion budget.
An unresolvable step id sets `status = "error"` and returns.  Otherwise the
actions run, `current_step` is set to this step's id, and a step whose type
(default `"human_task"`) is `"auto_action"` consults its transitions: a
truthy target id recurses, anything else (no satisfied transition, or a
satisfied transition with an absent/empty target) completes the instance.
A non-auto step returns with the status unchanged, awaiting manual
completion. -/
def execute_step (send : Value → String → String → Bool) :
    Nat → Nat → List Step → Value → String → Option String → Option String → ExecOut
  | 0, _, _, _, status, cur, _ => ⟨.fuelOut, status, cur, []⟩
  | fuel + 1, cFuel, steps, context, status, cur, step_id =>
    match findStep steps step_id with
    | Option.none => ⟨.ok, "error", cur, []⟩
    | some s =>
      match runActions send context s.actions with
      | (_, es, some e) => ⟨.raised e, status, cur, es⟩
      | (_, es, Option.none) =>
        if s.type.getD "human_task" = "auto_action" then
          match pickTransition cFuel context s.transitions with
          | .error e => ⟨.raised e, status, step_id, es⟩
          | .ok Option.none => ⟨.ok, "completed", step_id, es⟩
          | .ok (some tgt) =>
            if optTruthy tgt then
              let rest := execute_step send fuel cFuel steps context status step_id tgt
              ⟨rest.outcome, rest.status, rest.current_step, es ++ rest.emails⟩
            else ⟨.ok, "completed", step_id, es⟩
        else ⟨.ok, status, step_id, es⟩

/-- A persisted workflow instance snapshot.  The `uuid4()` id is an opaque
external value, modelled as `""`; no claim depends on instance ids. -/
structure Instance where
  id : String
  workflow_id : String
  current_step : Option String
  status : String
  context : Value

/-- What `execute_workflow` leaves behind: the created instance (in its
state after execution, as committed), the transport calls, and whether the
execution raised (the caller catches per-workflow exceptions). -/
structure RunOut where
  inst : Option Instance
  emails : List Email
  outcome : Outcome

/-- `WorkflowEngine.execute_workflow`: no steps means no instance;
otherwise the instance is created (`status = "active"`, `current_step =
initial_step_id`, `context = event_payload`), committed, and the initial
step executes.  Because every mutation is committed as it happens, the
instance row reflects the executor's final `status`/`current_step` even
when execution raised. -/
def execute_workflow (send : Value → String → String → Bool) (eFuel cFuel : Nat)
    (wf : WorkflowDefinition) (event_payload : Value) : RunOut :=
  let steps := wf.steps.getD []
  if steps.isEmpty then ⟨Option.none, [], .ok⟩
  else
    let out := execute_step send eFuel cFuel steps event_payload "active"
      wf.initial_step_id wf.initial_step_id
    ⟨some ⟨"", wf.id, out.current_step, out.status, event_payload⟩, out.emails, out.outcome⟩

/-- One Redis Stream entry as `process_event` receives it.  `org_id` is
read (default `"0"`) but never used by the processing logic. -/
structure MsgData where
  event_type : Option String
  payload : Option String
  org_id : Option String

/-- The observable outcome of `WorkflowConsumer.process_event` for one
message: whether the message id was acknowledged, the instances committed,
and the transport calls made. -/
structure ProcResult where
  acked : Bool
  instances : List Instance
  emails : List Email

/-- `WorkflowConsumer.process_event`, parametric in the payload decoder
(`json.loads`, `Option.none` meaning `JSONDecodeError`) and the transport.
A falsy `event_type` or `payload` field, an unparsable payload, an
exception escaping the matcher, or an empty match list each return early
without acknowledging; otherwise every matched workflow executes (its own
exceptions caught and logged) and the message is acknowledged. -/
def process_event (parse : String → Option Value) (send : Value → String → String → Bool)
    (eFuel cFuel : Nat) (defs : List WorkflowDefinition) (msg : MsgData) : ProcResult :=
  match msg.event_type, msg.payload with
  | some e, some p =>
    if e = "" || p = "" then ⟨false, [], []⟩
    else
      match parse p with
      | Option.none => ⟨false, [], []⟩
      | some payload =>
        match find_matching_workflows cFuel e payload defs with
        | .error _ => ⟨false, [], []⟩
        | .ok [] => ⟨false, [], []⟩
        | .ok ws =>
          let rs := ws.map (fun wf => execute_workflow send eFuel cFuel wf payload)
          ⟨true, rs.filterMap (fun r => r.inst), (rs.map (fun r => r.emails)).flatten⟩
  | _, _ => ⟨false, [], []⟩

/-- C2 as stated: whenever the payload mapping contains an `event_type`
key, the trigger-evaluation context built by `find_matching_workflows`
still maps `event_type` to the `event_type` argument. -/
def C2ClaimStatement : Prop :=
  ∀ (event_type : String) (entries : List (String × Value)) (ctxEntries : List (String × Value)),
    dictHasKey entries "event_type" = true →
    build_trigger_context event_type (.dict entries) = .ok (.dict ctxEntries) →
    dictGet ctxEntries "event_type" = some (.str event_type)

/-- A send-email/notification action dict with the given type tag and
config mapping, as `_execute_send_email` receives it. -/
def mkSendAction (ty : String) (cfg : List (String × Value)) : Value :=
  .dict [("type", .str ty), ("config", .dict cfg)]

/-- The `status` field of an action result dict. -/
def resultStatus : Value → Option Value
  | .dict re => dictGet re "status"
  | _ => Option.none

/-- C8 as stated: the recipient comes from the explicit `to` field whenever
that key is present (and otherwise from the `to_path` lookup, default
`"form.data.email"`); an empty resolution means a failed result and no
transport call. -/
def C8ClaimStatement : Prop :=
  ∀ (send : Value → String → String → Bool) (ty : String)
    (cfg : List (String × Value)) (context : Value),
    (ty = "send_email" ∨ ty = "send_notification") →
    pyTruthy (if dictHasKey cfg "to" then (dictGet cfg "to").getD .none
              else match resolve_to_path cfg with
                   | .ok p => get_path_value context p
                   | .error _ => .none) = false →
    ∀ r es, execute_action send (mkSendAction ty cfg) context = .ok (r, es) →
      es = [] ∧ resultStatus r = some (.str "failed")

/-- The transport stub used by concrete scenarios: always reports success. -/
def sendTrue : Value → String → String → Bool := fun _ _ _ => true

/-- The directed graph on step ids induced by the `to_step_id` fields: there
is an edge from the id of a step in the list to each of its transitions'
targets. -/
def stepEdge (steps : List Step) (x y : Option String) : Prop :=
  ∃ s ∈ steps, s.id = x ∧ ∃ t ∈ s.transitions, t.to_step_id = y

/-- Acyclicity of the transition graph: no id reaches itself through one or
more edges. -/
def AcyclicSteps (steps : List Step) : Prop :=
  ∀ x, ¬ Relation.TransGen (stepEdge steps) x x

/-- Witness steps for C9: a two-step chain with no cycle. -/
def c9Steps : List Step :=
  [⟨some "s1", some "auto_action", [], [⟨Value.none, some "s2"⟩]⟩,
   ⟨some "s2", some "human_task", [], []⟩]

/-- C4 as stated: when execution returns normally, the final status is
`"completed"` exactly when the step at the final `current_step` is an
`auto_action` with no satisfied transition, and `"active"` exactly when
that step is a human task. -/
def C4ClaimStatement : Prop :=
  ∀ (send : Value → String → String → Bool) (fuel cFuel : Nat) (steps : List Step)
    (context : Value) (sid : Option String) (out : ExecOut),
    execute_step send fuel cFuel steps context "active" sid sid = out →
    out.outcome = .ok →
    ((out.status = "completed" ↔ ∃ s, findStep steps out.current_step = some s ∧
        s.type.getD "human_task" = "auto_action" ∧
        pickTransition cFuel context s.transitions = .ok Option.none) ∧
     (out.status = "active" ↔ ∃ s, findStep steps out.current_step = some s ∧
        s.type.getD "human_task" ≠ "auto_action"))

/-- The single step of the C4 counterexample: an `auto_action` whose only
transition is unconditionally satisfied but carries an empty target id. -/
def c4CexSteps : List Step :=
  [⟨some "s1", some "auto_action", [], [⟨Value.none, some ""⟩]⟩]

/-- Witness steps for C4: an auto step that transitions unconditionally to
a human task. -/
def c4Steps : List Step :=
  [⟨some "s1", some "auto_action", [], [⟨Value.none, some "s2"⟩]⟩,
   ⟨some "s2", some "human_task", [], []⟩]



/-- The workflow definition of the end-to-end scenario in the spec: trigger
on `form_submitted` with a `template_id` condition, one `auto_action` step
sending a templated email to `data.email`, no transitions. -/
def scenarioWf : WorkflowDefinition :=
  ⟨"wf1", true,
   some (.dict [("type", .str "form_submitted"),
     ("conditions", .dict [("path", .str "template_id"), ("op", .str "=="),
       ("value", .str "form_submitted")])]),
   some "step1",
   some [⟨some "step1", some "auto_action",
     [.dict [("type", .str "send_email"),
       ("config", .dict [("to_path", .str "data.email"),
         ("subject", .str "Confirmation - {template_id}")])]],
     []⟩]⟩

/-- The event payload of the end-to-end scenario. -/
def scenarioPayload : Value :=
  .dict [("template_id", .str "form_submitted"),
         ("data", .dict [("email", .str "a@b.com")]),
         ("submission_id", .str "s1")]

/-! ## Theorems about the claims -/

/-- C1.  The claim says ordering comparisons on an absent or type-mismatched
context value fail closed (return false) instead of raising.  The code
instead evaluates Python's `>`/`<` directly, which raises `TypeError` both
when the resolved value is `None` (absent path) and when the operand types
mismatch.  Both failing evaluations are computed here. -/
theorem c1_ordering_comparison_raises :
    evaluate_condition 1
      (.dict [("path", .str "amount"), ("op", .str ">"), ("value", .int 100)])
      (.dict []) = .error .typeError ∧
    evaluate_condition 1
      (.dict [("path", .str "amount"), ("op", .str "<"), ("value", .int 100)])
      (.dict [("amount", .str "50")]) = .error .typeError ∧
    evaluate_condition 1
      (.dict [("path", .str "amount"), ("op", .str ">="), ("value", .str "x")])
      (.dict [("amount", .int 3)]) = .error .typeError :=
  ⟨rfl, rfl, rfl⟩

/-- C5.  `all` over an empty child list is true, `any` over an empty child
list is false, and an absent (`None`) condition is unconditionally true,
for every context and every recursion budget. -/
theorem c5_empty_connectives_and_absent_condition (fuel : Nat) (context : Value) :
    evaluate_condition (fuel + 1) (.dict [("all", .list [])]) context = .ok true ∧
    evaluate_condition (fuel + 1) (.dict [("any", .list [])]) context = .ok false ∧
    evaluate_condition (fuel + 1) .none context = .ok true :=
  ⟨rfl, rfl, rfl⟩

/-- C10.  An empty condition mapping is falsy and therefore true exactly
like an absent condition; every non-empty mapping without an `all` key,
without an `any` key and without both a `path` and an `op` key falls
through every branch and returns false. -/
theorem c10_empty_and_keyless_mappings (fuel : Nat) (context : Value) :
    evaluate_condition (fuel + 1) (.dict []) context = .ok true ∧
    ∀ entries, entries ≠ [] →
      dictHasKey entries "all" = false →
      dictHasKey entries "any" = false →
      (dictHasKey entries "path" && dictHasKey entries "op") = false →
      evaluate_condition (fuel + 1) (.dict entries) context = .ok false := by
  refine ⟨rfl, ?_⟩
  intro entries hne hall hany hleaf
  have hga : dictGet entries "all" = Option.none := by
    cases h : dictGet entries "all" with
    | none => rfl
    | some v => rw [dictHasKey, h] at hall; cases hall
  have hgn : dictGet entries "any" = Option.none := by
    cases h : dictGet entries "any" with
    | none => rfl
    | some v => rw [dictHasKey, h] at hany; cases hany
  have htr : pyTruthy (.dict entries) = true := by
    cases entries with
    | nil => cases hne rfl
    | cons a l => rfl
  simp only [evaluate_condition, htr, hga, hgn, hleaf]
  rfl

/-- Witness for C10: a concrete one-key mapping with none of the recognised
keys evaluates to false. -/
theorem c10_witness :
    evaluate_condition 1 (.dict [("foo", Value.int 1)]) (.dict []) = .ok false :=
  (c10_empty_and_keyless_mappings 0 (.dict [])).2 [("foo", Value.int 1)]
    (List.cons_ne_nil _ _) rfl rfl rfl



/-- Helper: first-match lookup distributes over append. -/
theorem dictGet_append (a b : List (String × Value)) (k : String) :
    dictGet (a ++ b) k = match dictGet a k with
      | some v => some v
      | Option.none => dictGet b k := by
  induction a with
  | nil => simp [dictGet]
  | cons kv rest ih =>
    simp only [List.cons_append, dictGet, List.find?_cons] at ih ⊢
    by_cases h : kv.1 = k
    · simp [h]
    · simp only [h, decide_eq_false, Bool.false_eq_true, reduceCtorEq] at ih ⊢
      exact ih


/-- C2 counterexample: with payload `{"event_type": "payload_type"}` and
event type `"order_created"`, the built context maps `event_type` to the
payload value, because the payload is splatted after the reserved key and
therefore wins on every collision. -/
theorem c2_counterexample : ¬ C2ClaimStatement := by
  intro h
  have h2 := h "order_created" [("event_type", Value.str "payload_type")] _ rfl rfl
  rw [show dictGet (pyDictUpdate [("event_type", Value.str "order_created")]
      [("event_type", Value.str "payload_type")]) "event_type"
      = some (Value.str "payload_type") from rfl] at h2
  simp at h2

/-- C2 amended: the context built for trigger evaluation is the payload
splatted over `{"event_type": event_type}`, so a lookup returns the
payload value for every key the payload has (`event_type` included) and
falls back to the event-type argument only for the reserved key when the
payload lacks it. -/
theorem c2_amended (event_type : String) (entries : List (String × Value)) (k : String) :
    build_trigger_context event_type (.dict entries) =
      .ok (.dict (pyDictUpdate [("event_type", .str event_type)] entries)) ∧
    dictGet (pyDictUpdate [("event_type", .str event_type)] entries) k =
      match dictGet entries k with
      | some v => some v
      | Option.none => if k = "event_type" then some (.str event_type) else Option.none := by
  refine ⟨rfl, ?_⟩
  rw [pyDictUpdate, dictGet_append]
  cases h : dictGet entries k with
  | some v => simp
  | none =>
    by_cases hk : k = "event_type"
    · subst hk; simp [dictGet, List.find?]
    · simp [dictGet, List.find?, hk, Ne.symm hk]

/-- C3.  A structurally valid message whose event type matches no active
definition: the code takes the `if not matching_workflows: return` early
exit, which creates no instance but also skips the acknowledgement, so the
message stays pending (the claim and the spec say it must be
acknowledged). -/
theorem c3_no_match_not_acknowledged :
    process_event (fun _ => some (.dict [("template_id", .str "x")])) (fun _ _ _ => true) 3 3
      [⟨"wf1", true, some (.dict [("type", .str "other_event")]), some "s1",
        some [⟨some "s1", some "auto_action", [], []⟩]⟩]
      ⟨some "order_created", some "raw", some "0"⟩ =
      ⟨false, [], []⟩ :=
  rfl

/-- C7.  A message missing `event_type`, or whose payload string the
decoder rejects, is skipped without acknowledgement and without creating
any instance (it stays pending for the next poll). -/
theorem c7_malformed_message_skipped
    (parse : String → Option Value) (send : Value → String → String → Bool)
    (eFuel cFuel : Nat) (defs : List WorkflowDefinition) (msg : MsgData)
    (h : msg.event_type = Option.none ∨
         ∃ p, msg.payload = some p ∧ parse p = Option.none) :
    process_event parse send eFuel cFuel defs msg = ⟨false, [], []⟩ := by
  obtain ⟨et, pl, oid⟩ := msg
  rcases h with h | ⟨p, hp, hparse⟩
  · simp only at h
    subst h
    rfl
  · simp only at hp
    subst hp
    cases et with
    | none => rfl
    | some e =>
      simp only [process_event]
      by_cases he : (e = "" || p = "") = true
      · simp [he]
      · simp only [Bool.not_eq_true] at he
        simp [he, hparse]

/-- Witness for C7: a concrete message whose payload the decoder rejects
is left unacknowledged with no instances. -/
theorem c7_witness :
    process_event (fun _ => Option.none) (fun _ _ _ => true) 1 1 []
      ⟨some "order_created", some "not json", Option.none⟩ = ⟨false, [], []⟩ :=
  c7_malformed_message_skipped _ _ 1 1 [] _ (Or.inr ⟨"not json", rfl, rfl⟩)



/-- C6.  (1) `_execute_step` on an unresolvable step id immediately sets
`status = "error"` and returns, leaving `current_step` untouched — a
terminal state, whatever budget remains.  (2) The consumer acknowledges
every message that parses and matches at least one workflow, because
per-workflow exceptions are caught: a `StepNotFound` error status never
blocks the acknowledgement.  (3) `execute_workflow` on a definition whose
initial step id resolves to no step commits the instance with
`status = "error"`. -/
theorem c6_missing_step_errors_and_still_acked :
    (∀ (send : Value → String → String → Bool) (fuel cFuel : Nat) (steps : List Step)
        (context : Value) (status : String) (cur step_id : Option String),
        findStep steps step_id = Option.none →
        execute_step send (fuel + 1) cFuel steps context status cur step_id =
          ⟨.ok, "error", cur, []⟩) ∧
    (∀ (parse : String → Option Value) (send : Value → String → String → Bool)
        (eFuel cFuel : Nat) (defs : List WorkflowDefinition) (msg : MsgData)
        (e p : String) (v : Value) (ws : List WorkflowDefinition),
        msg.event_type = some e → e ≠ "" →
        msg.payload = some p → p ≠ "" →
        parse p = some v →
        find_matching_workflows cFuel e v defs = .ok ws → ws ≠ [] →
        (process_event parse send eFuel cFuel defs msg).acked = true) ∧
    (∀ (send : Value → String → String → Bool) (eFuel cFuel : Nat)
        (wf : WorkflowDefinition) (payload : Value) (ss : List Step),
        wf.steps = some ss → ss.isEmpty = false →
        findStep ss wf.initial_step_id = Option.none →
        (execute_workflow send (eFuel + 1) cFuel wf payload).inst =
          some ⟨"", wf.id, wf.initial_step_id, "error", payload⟩) := by
  refine ⟨?_, ?_, ?_⟩
  · intro send fuel cFuel steps context status cur step_id hfind
    simp only [execute_step, hfind]
  · intro parse send eFuel cFuel defs msg e p v ws he hne hp hpne hparse hfind hws
    obtain ⟨et, pl, oid⟩ := msg
    simp only at he hp
    subst he; subst hp
    simp only [process_event, hne, hpne, decide_eq_false, Bool.or_self, Bool.false_eq_true,
      if_false, hparse, hfind]
    cases ws with
    | nil => cases hws rfl
    | cons w rest => rfl
  · intro send eFuel cFuel wf payload ss hss hne hfind
    simp only [execute_workflow, hss, Option.getD_some, hne, Bool.false_eq_true, if_false]
    simp only [execute_step, hfind]

/-- Witness for C6: a concrete definition whose `initial_step_id` is
`"missing"` while its only step is `"s1"`; the executor reports `"error"`
without touching `current_step`, and the consumer still acknowledges the
message that triggered it. -/
theorem c6_witness :
    execute_step (fun _ _ _ => true) 3 3
      [⟨some "s1", some "auto_action", [], []⟩] (.dict []) "active"
      (some "missing") (some "missing") = ⟨.ok, "error", some "missing", []⟩ ∧
    (process_event (fun _ => some (.dict []))
      (fun _ _ _ => true) 3 3
      [⟨"wf1", true, some (.dict [("type", .str "order_created")]), some "missing",
        some [⟨some "s1", some "auto_action", [], []⟩]⟩]
      ⟨some "order_created", some "raw", some "0"⟩).acked = true := by
  constructor
  · exact c6_missing_step_errors_and_still_acked.1 _ 2 3 _ _ _ _ _ rfl
  · exact c6_missing_step_errors_and_still_acked.2.1 _ _ 3 3 _ _ "order_created" "raw"
      (.dict [])
      [⟨"wf1", true, some (.dict [("type", .str "order_created")]), some "missing",
        some [⟨some "s1", some "auto_action", [], []⟩]⟩]
      rfl (by simp) rfl (by simp) rfl rfl (by simp)

/-- C8 counterexample: with config `\x7b"to": ""\x7d` the `to` key is present
and resolves to the empty (falsy) string, so the claim predicts a failed
result with no transport call; the code instead falls through Python
`or` to the path lookup, finds `user@example.com` in the context, and
invokes the transport. -/
theorem c8_counterexample : ¬ C8ClaimStatement := by
  intro h
  have h2 := h (fun _ _ _ => true) "send_email" [("to", Value.str "")]
    (.dict [("form", .dict [("data", .dict [("email", .str "user@example.com")])])])
    (Or.inl rfl) rfl
    (.dict [("status", .str "success"), ("action", .str "send_email"),
      ("to", .str "user@example.com")])
    [⟨.str "user@example.com", "Notification", "You have a new notification."⟩]
    rfl
  simp at h2

/-- C8 amended: the recipient is the `to` value when that value is truthy
and the `to_path` lookup (default path `"form.data.email"`) otherwise;
whenever the value so resolved is falsy, the action result is the failed
dict and the transport collaborator is never invoked. -/
theorem c8_amended :
    (∀ (send : Value → String → String → Bool) (ty : String)
        (cfg : List (String × Value)) (context : Value) (v : Value),
        (ty = "send_email" ∨ ty = "send_notification") →
        resolve_recipient cfg context = .ok v →
        pyTruthy v = false →
        execute_action send (mkSendAction ty cfg) context =
          .ok (.dict [("status", .str "failed"),
            ("reason", .str "No recipient email found")], [])) ∧
    (∀ (cfg : List (String × Value)) (context : Value),
        pyTruthy ((dictGet cfg "to").getD .none) = true →
        resolve_recipient cfg context = .ok ((dictGet cfg "to").getD .none)) ∧
    (∀ (cfg : List (String × Value)) (context : Value),
        pyTruthy ((dictGet cfg "to").getD .none) = false →
        resolve_recipient cfg context =
          match resolve_to_path cfg with
          | .ok p => .ok (get_path_value context p)
          | .error e => .error e) := by
  refine ⟨?_, ?_, ?_⟩
  · intro send ty cfg context v hty hres htr
    have hdisp : (pyEq (.str ty) (.str "send_notification") ||
        pyEq (.str ty) (.str "send_email")) = true := by
      rcases hty with h | h <;> subst h <;> rfl
    simp [execute_action, mkSendAction, execute_send_email, send_email_inner,
      show dictGet [("type", Value.str ty), ("config", Value.dict cfg)] "type"
        = some (.str ty) from rfl,
      show dictGet [("type", Value.str ty), ("config", Value.dict cfg)] "config"
        = some (.dict cfg) from rfl,
      hdisp, hres, htr, bind, Except.bind, pure, Except.pure]
  · intro cfg context htr
    simp [resolve_recipient, htr]
  · intro cfg context htr
    simp only [resolve_recipient, htr, Bool.false_eq_true, if_false]
    cases h : resolve_to_path cfg <;> rfl

/-- Witness for C8 (amended): an absent `to` and an empty context resolve
to `None`, so the action fails without a transport call. -/
theorem c8_witness :
    execute_action (fun _ _ _ => true) (mkSendAction "send_email" [("to", Value.none)])
      (.dict []) =
      .ok (.dict [("status", .str "failed"),
        ("reason", .str "No recipient email found")], []) :=
  c8_amended.1 _ "send_email" _ _ .none (Or.inl rfl) rfl rfl

/-- Helper: a successful `findStep` returns a member of the list bearing
the requested id. -/
theorem findStep_mem (steps : List Step) (sid : Option String) (s : Step)
    (h : findStep steps sid = some s) : s ∈ steps ∧ s.id = sid := by
  refine ⟨List.mem_of_find?_eq_some h, ?_⟩
  have := List.find?_some h
  exact of_decide_eq_true this

/-- Helper: a transition target produced by `pickTransition` comes from one
of the given transitions. -/
theorem pickTransition_mem (fuel : Nat) (context : Value) (ts : List Transition)
    (tgt : Option String) (h : pickTransition fuel context ts = .ok (some tgt)) :
    ∃ t ∈ ts, t.to_step_id = tgt := by
  induction ts with
  | nil => simp [pickTransition] at h
  | cons t rest ih =>
    simp only [pickTransition] at h
    by_cases hc : pyTruthy t.condition = false
    · simp only [hc, if_true] at h
      injection h with h2
      injection h2 with h3
      exact ⟨t, List.mem_cons_self t rest, h3⟩
    · simp only [hc, if_false] at h
      cases he : evaluate_condition fuel t.condition context with
      | error e => rw [he] at h; cases h
      | ok b =>
        rw [he] at h
        cases b with
        | true =>
          simp only at h
          injection h with h2
          injection h2 with h3
          exact ⟨t, List.mem_cons_self t rest, h3⟩
        | false =>
          simp only at h
          obtain ⟨t2, ht2, h3⟩ := ih h
          exact ⟨t2, List.mem_cons_of_mem _ ht2, h3⟩

/-- Bounded-visits lemma behind C9: along the execution every visited id is
an id of some step and the chain of visits follows `stepEdge`, so on an
acyclic graph the set of ids not yet visited strictly shrinks and a budget
exceeding it can never run out. -/
theorem exec_fuel_sufficient (send : Value → String → String → Bool) (cFuel : Nat)
    (steps : List Step) (context : Value) (hacyc : AcyclicSteps steps) :
    ∀ (fuel : Nat) (F : Finset (Option String)) (status : String) (cur sid : Option String),
      (∀ a ∈ F, Relation.TransGen (stepEdge steps) a sid) →
      ((steps.map Step.id).toFinset \ F).card < fuel →
      (execute_step send fuel cFuel steps context status cur sid).outcome ≠ .fuelOut := by
  intro fuel
  induction fuel with
  | zero =>
    intro F status cur sid hF hcard
    exact absurd hcard (Nat.not_lt_zero _)
  | succ n ih =>
    intro F status cur sid hF hcard
    cases hfind : findStep steps sid with
    | none => simp [execute_step, hfind]
    | some s =>
      obtain ⟨hmem, hid⟩ := findStep_mem _ _ _ hfind
      rcases hra : runActions send context s.actions with ⟨rs, es, eopt⟩
      cases eopt with
      | some e => simp [execute_step, hfind, hra]
      | none =>
        by_cases hty : s.type.getD "human_task" = "auto_action"
        · cases hpick : pickTransition cFuel context s.transitions with
          | error e => simp [execute_step, hfind, hra, hty, hpick]
          | ok tgtO =>
            cases tgtO with
            | none => simp [execute_step, hfind, hra, hty, hpick]
            | some tgt =>
              by_cases htr : optTruthy tgt = true
              · have hsid_mem : sid ∈ (steps.map Step.id).toFinset := by
                  rw [List.mem_toFinset, List.mem_map]
                  exact ⟨s, hmem, hid⟩
                have hsid_notF : sid ∉ F := fun hin => hacyc sid (hF sid hin)
                have hedge : stepEdge steps sid tgt := by
                  obtain ⟨t, htmem, htgt⟩ := pickTransition_mem _ _ _ _ hpick
                  exact ⟨s, hmem, hid, t, htmem, htgt⟩
                have hF2 : ∀ a ∈ insert sid F,
                    Relation.TransGen (stepEdge steps) a tgt := by
                  intro a ha
                  rcases Finset.mem_insert.mp ha with h | h
                  · subst h; exact Relation.TransGen.single hedge
                  · exact (hF a h).tail hedge
                have hmem2 : sid ∈ (steps.map Step.id).toFinset \ F :=
                  Finset.mem_sdiff.mpr ⟨hsid_mem, hsid_notF⟩
                have hcard2 :
                    ((steps.map Step.id).toFinset \ insert sid F).card < n := by
                  rw [Finset.sdiff_insert]
                  have h1 := Finset.card_erase_of_mem hmem2
                  have h2 : 0 < ((steps.map Step.id).toFinset \ F).card :=
                    Finset.card_pos.mpr ⟨sid, hmem2⟩
                  omega
                have hrec := ih (insert sid F) status sid tgt hF2 hcard2
                simp only [execute_step, hfind, hra, hty, if_true, hpick, htr]
                exact hrec
              · simp [execute_step, hfind, hra, hty, hpick, htr]
        · simp [execute_step, hfind, hra, hty]

/-- C9.  When the directed graph induced by the transitions' `to_step_id`
fields is acyclic, `_execute_step` terminates within a recursion budget of
one more than the number of steps in the definition: it visits each
existing step at most once plus at most one unresolvable id. -/
theorem c9_acyclic_execution_terminates (send : Value → String → String → Bool)
    (cFuel : Nat) (steps : List Step) (context : Value) (status : String)
    (cur sid : Option String) (hacyc : AcyclicSteps steps) :
    (execute_step send (steps.length + 1) cFuel steps context status cur sid).outcome ≠
      .fuelOut := by
  apply exec_fuel_sufficient send cFuel steps context hacyc (steps.length + 1) ∅ status cur sid
  · intro a ha
    exact absurd ha (Finset.not_mem_empty a)
  · rw [Finset.sdiff_empty]
    have h1 := (steps.map Step.id).toFinset_card_le
    have h2 : (steps.map Step.id).length = steps.length := List.length_map _ _
    omega

/-- Witness for C9: the two-step acyclic chain runs to its human task
within a budget of three. -/
theorem c9_witness :
    (execute_step sendTrue 3 1 c9Steps (.dict []) "active"
      (some "s1") (some "s1")).outcome ≠ .fuelOut := by
  apply c9_acyclic_execution_terminates sendTrue 1 c9Steps (.dict []) "active"
    (some "s1") (some "s1")
  intro x hx
  have hedge : ∀ a b, stepEdge c9Steps a b → a = some "s1" ∧ b = some "s2" := by
    intro a b hab
    obtain ⟨st, hst, hsid, t, htmem, htgt⟩ := hab
    simp only [c9Steps, List.mem_cons, List.not_mem_nil, or_false] at hst
    rcases hst with h | h
    · subst h
      simp only [List.mem_cons, List.not_mem_nil, or_false] at htmem
      subst htmem
      exact ⟨hsid.symm, htgt.symm⟩
    · subst h
      simp at htmem
  have hlast : ∀ a b, Relation.TransGen (stepEdge c9Steps) a b → b = some "s2" := by
    intro a b h
    induction h with
    | single h1 => exact (hedge _ _ h1).2
    | tail _ h1 _ => exact (hedge _ _ h1).2
  have hfirst : ∀ a b, Relation.TransGen (stepEdge c9Steps) a b → a = some "s1" := by
    intro a b h
    induction h with
    | single h1 => exact (hedge _ _ h1).1
    | tail _ _ ih => exact ih
  have h1 := hlast _ _ hx
  have h2 := hfirst _ _ hx
  rw [h1] at h2
  simp at h2

/-- C4 counterexample: on `c4CexSteps` the executor finishes with status
`"completed"` although the terminal step does have a satisfied transition —
the transition is taken, found falsy (`""`), and the completed branch is
entered anyway. -/
theorem c4_counterexample : ¬ C4ClaimStatement := by
  intro h
  have h2 := (h sendTrue 2 1 c4CexSteps (.dict []) (some "s1")
    ⟨.ok, "completed", some "s1", []⟩ rfl rfl).1
  obtain ⟨s, hs, hauto, hpick⟩ := h2.mp rfl
  rw [show findStep c4CexSteps (some "s1") =
    some ⟨some "s1", some "auto_action", [], [⟨Value.none, some ""⟩]⟩ from rfl] at hs
  injection hs with hs2
  subst hs2
  rw [show pickTransition 1 (.dict [])
      (Step.mk (some "s1") (some "auto_action") [] [⟨Value.none, some ""⟩]).transitions =
      .ok (some (some "")) from rfl] at hpick
  simp at hpick

/-- The invariant-strengthened characterization behind C4: starting from a
`current_step` that either equals the step id about to run or resolves to
an auto step whose first satisfied transition led here with a truthy
target, a normally-returning execution ends `"completed"` exactly on an
auto step without a usable transition, and `"active"` exactly on a
non-auto step. -/
theorem exec_status_char (send : Value → String → String → Bool) (cFuel : Nat)
    (steps : List Step) (context : Value) :
    ∀ (fuel : Nat) (cur sid : Option String),
      (cur = sid ∨ ∃ s0 t0, findStep steps cur = some s0 ∧
        s0.type.getD "human_task" = "auto_action" ∧
        pickTransition cFuel context s0.transitions = .ok (some t0) ∧
        optTruthy t0 = true) →
      ∀ out, execute_step send fuel cFuel steps context "active" cur sid = out →
      out.outcome = .ok →
      ((out.status = "completed" ↔ ∃ s, findStep steps out.current_step = some s ∧
          s.type.getD "human_task" = "auto_action" ∧
          (pickTransition cFuel context s.transitions = .ok Option.none ∨
           ∃ t, pickTransition cFuel context s.transitions = .ok (some t) ∧
             optTruthy t = false)) ∧
       (out.status = "active" ↔ ∃ s, findStep steps out.current_step = some s ∧
          s.type.getD "human_task" ≠ "auto_action")) := by
  intro fuel
  induction fuel with
  | zero =>
    intro cur sid hInv out hout houtcome
    subst hout
    simp [execute_step] at houtcome
  | succ n ih =>
    intro cur sid hInv out hout houtcome
    cases hfind : findStep steps sid with
    | none =>
      have hstep : execute_step send (n + 1) cFuel steps context "active" cur sid =
          ⟨.ok, "error", cur, []⟩ := by
        simp only [execute_step, hfind]
      rw [hstep] at hout
      subst hout
      refine ⟨iff_of_false (by simp) ?_, iff_of_false (by simp) ?_⟩
      · rintro ⟨s, hs, hauto, hdisj⟩
        have hs2 : findStep steps cur = some s := hs
        rcases hInv with rfl | ⟨s0, t0, hfind0, hauto0, hpick0, htr0⟩
        · rw [hfind] at hs2; cases hs2
        · rw [hfind0] at hs2
          injection hs2 with h2
          subst h2
          rcases hdisj with hL | ⟨t, hp, htf⟩
          · rw [hpick0] at hL; simp at hL
          · rw [hpick0] at hp
            injection hp with hp2
            injection hp2 with hp3
            rw [← hp3] at htf
            rw [htr0] at htf
            cases htf
      · rintro ⟨s, hs, hne⟩
        have hs2 : findStep steps cur = some s := hs
        rcases hInv with rfl | ⟨s0, t0, hfind0, hauto0, hpick0, htr0⟩
        · rw [hfind] at hs2; cases hs2
        · rw [hfind0] at hs2
          injection hs2 with h2
          subst h2
          exact hne hauto0
    | some s =>
      rcases hra : runActions send context s.actions with ⟨rs, es, eopt⟩
      cases eopt with
      | some e =>
        have hstep : execute_step send (n + 1) cFuel steps context "active" cur sid =
            ⟨.raised e, "active", cur, es⟩ := by
          simp only [execute_step, hfind, hra]
        rw [hstep] at hout
        subst hout
        simp at houtcome
      | none =>
        by_cases hty : s.type.getD "human_task" = "auto_action"
        · cases hpick : pickTransition cFuel context s.transitions with
          | error e =>
            have hstep : execute_step send (n + 1) cFuel steps context "active" cur sid =
                ⟨.raised e, "active", sid, es⟩ := by
              simp [execute_step, hfind, hra, hty, hpick]
            rw [hstep] at hout
            subst hout
            simp at houtcome
          | ok tgtO =>
            cases tgtO with
            | none =>
              have hstep : execute_step send (n + 1) cFuel steps context "active" cur sid =
                  ⟨.ok, "completed", sid, es⟩ := by
                simp [execute_step, hfind, hra, hty, hpick]
              rw [hstep] at hout
              subst hout
              refine ⟨iff_of_true rfl ⟨s, hfind, hty, Or.inl hpick⟩,
                iff_of_false (by simp) ?_⟩
              rintro ⟨s2, hs2, hne⟩
              have hs3 : findStep steps sid = some s2 := hs2
              rw [hfind] at hs3
              injection hs3 with h3
              subst h3
              exact hne hty
            | some tgt =>
              by_cases htr : optTruthy tgt = true
              · have hstep : execute_step send (n + 1) cFuel steps context "active" cur sid =
                    ⟨(execute_step send n cFuel steps context "active" sid tgt).outcome,
                     (execute_step send n cFuel steps context "active" sid tgt).status,
                     (execute_step send n cFuel steps context "active" sid tgt).current_step,
                     es ++ (execute_step send n cFuel steps context "active" sid tgt).emails⟩ := by
                  simp [execute_step, hfind, hra, hty, hpick, htr]
                rw [hstep] at hout
                subst hout
                have houtcome2 :
                    (execute_step send n cFuel steps context "active" sid tgt).outcome =
                      .ok := houtcome
                exact ih sid tgt (Or.inr ⟨s, tgt, hfind, hty, hpick, htr⟩)
                  (execute_step send n cFuel steps context "active" sid tgt) rfl houtcome2
              · rw [Bool.not_eq_true] at htr
                have hstep : execute_step send (n + 1) cFuel steps context "active" cur sid =
                    ⟨.ok, "completed", sid, es⟩ := by
                  simp [execute_step, hfind, hra, hty, hpick, htr]
                rw [hstep] at hout
                subst hout
                refine ⟨iff_of_true rfl ⟨s, hfind, hty, Or.inr ⟨tgt, hpick, htr⟩⟩,
                  iff_of_false (by simp) ?_⟩
                rintro ⟨s2, hs2, hne⟩
                have hs3 : findStep steps sid = some s2 := hs2
                rw [hfind] at hs3
                injection hs3 with h3
                subst h3
                exact hne hty
        · have hstep : execute_step send (n + 1) cFuel steps context "active" cur sid =
              ⟨.ok, "active", sid, es⟩ := by
            simp [execute_step, hfind, hra, hty]
          rw [hstep] at hout
          subst hout
          refine ⟨iff_of_false (by simp) ?_, iff_of_true rfl ⟨s, hfind, hty⟩⟩
          rintro ⟨s2, hs2, hauto2, hrest⟩
          have hs3 : findStep steps sid = some s2 := hs2
          rw [hfind] at hs3
          injection hs3 with h3
          subst h3
          exact hty hauto2

/-- C4 amended.  (1) On an `auto_action` step whose first satisfied
transition carries a truthy (non-empty, non-absent) target id, the
executor recurses into that target, merging the transport calls.  (2) When
execution returns normally, the final status is `"completed"` iff the step
at the final `current_step` is an `auto_action` whose transition scan found
nothing satisfied or only a satisfied transition with a falsy target, and
`"active"` iff that step is not an `auto_action` (a human task). -/
theorem c4_amended :
    (∀ (send : Value → String → String → Bool) (fuel cFuel : Nat) (steps : List Step)
        (context : Value) (cur sid : Option String) (s : Step) (rs : List Value)
        (es : List Email) (tgt : Option String),
        findStep steps sid = some s →
        s.type.getD "human_task" = "auto_action" →
        runActions send context s.actions = (rs, es, Option.none) →
        pickTransition cFuel context s.transitions = .ok (some tgt) →
        optTruthy tgt = true →
        execute_step send (fuel + 1) cFuel steps context "active" cur sid =
          ⟨(execute_step send fuel cFuel steps context "active" sid tgt).outcome,
           (execute_step send fuel cFuel steps context "active" sid tgt).status,
           (execute_step send fuel cFuel steps context "active" sid tgt).current_step,
           es ++ (execute_step send fuel cFuel steps context "active" sid tgt).emails⟩) ∧
    (∀ (send : Value → String → String → Bool) (fuel cFuel : Nat) (steps : List Step)
        (context : Value) (sid : Option String) (out : ExecOut),
        execute_step send fuel cFuel steps context "active" sid sid = out →
        out.outcome = .ok →
        ((out.status = "completed" ↔ ∃ s, findStep steps out.current_step = some s ∧
            s.type.getD "human_task" = "auto_action" ∧
            (pickTransition cFuel context s.transitions = .ok Option.none ∨
             ∃ t, pickTransition cFuel context s.transitions = .ok (some t) ∧
               optTruthy t = false)) ∧
         (out.status = "active" ↔ ∃ s, findStep steps out.current_step = some s ∧
            s.type.getD "human_task" ≠ "auto_action"))) := by
  constructor
  · intro send fuel cFuel steps context cur sid s rs es tgt hfind hty hra hpick htr
    simp only [execute_step, hfind, hra, hty, if_true, hpick, htr]
  · intro send fuel cFuel steps context sid out hout houtcome
    exact exec_status_char send cFuel steps context fuel sid sid (Or.inl rfl) out hout houtcome

/-- Witness for C4 (amended): the auto step recurses into `"s2"`, and the
run that stops on the human task `"s2"` has final status `"active"`. -/
theorem c4_witness :
    execute_step sendTrue 2 1 c4Steps (.dict []) "active" (some "s1") (some "s1") =
      ⟨(execute_step sendTrue 1 1 c4Steps (.dict []) "active" (some "s1") (some "s2")).outcome,
       (execute_step sendTrue 1 1 c4Steps (.dict []) "active" (some "s1") (some "s2")).status,
       (execute_step sendTrue 1 1 c4Steps (.dict []) "active" (some "s1") (some "s2")).current_step,
       [] ++ (execute_step sendTrue 1 1 c4Steps (.dict []) "active" (some "s1") (some "s2")).emails⟩ ∧
    (((⟨.ok, "active", some "s2", []⟩ : ExecOut).status = "active") ↔
      ∃ s, findStep c4Steps (some "s2") = some s ∧
        s.type.getD "human_task" ≠ "auto_action") :=
  ⟨c4_amended.1 sendTrue 1 1 c4Steps (.dict []) (some "s1") (some "s1")
      ⟨some "s1", some "auto_action", [], [⟨Value.none, some "s2"⟩]⟩ [] [] (some "s2")
      rfl rfl rfl rfl rfl,
   (c4_amended.2 sendTrue 2 1 c4Steps (.dict []) (some "s1")
      ⟨.ok, "active", some "s2", []⟩ rfl rfl).2⟩

/-- The end-to-end scenario of the spec, computed on the embedding: the
definition matches the event, one instance runs to `"completed"`, one
templated email goes to `a@b.com`, and the message is acknowledged. -/
theorem end_to_end_scenario :
    find_matching_workflows 2 "form_submitted" scenarioPayload [scenarioWf] =
      .ok [scenarioWf] ∧
    (execute_workflow sendTrue 2 2 scenarioWf scenarioPayload).inst =
      some ⟨"", "wf1", some "step1", "completed", scenarioPayload⟩ ∧
    (execute_workflow sendTrue 2 2 scenarioWf scenarioPayload).emails =
      [⟨.str "a@b.com", "Confirmation - form_submitted",
        "You have a new notification."⟩] ∧
    (process_event (fun _ => some scenarioPayload) sendTrue 2 2 [scenarioWf]
      ⟨some "form_submitted", some "raw", some "0"⟩).acked = true :=
  ⟨rfl, rfl, rfl, rfl⟩


end Workflow
